import Mathlib

/-!
Verification of `civis/futures.py` and `civis/parallel.py`.

Shallow embedding of the job-tracking future (`CivisFuture` /
`ContainerFuture`), the executor's bulk cancellation, and the joblib
backend (`_CivisBackend`, `_CivisBackendResult`, `_robust_result_download`)
as pure Lean functions, together with theorems about their behaviour.

Opaque payloads (exception objects, deserialized values, file ids, run ids)
are represented by natural numbers; only their identity matters to the
control flow being verified.
-/

/-- Modelled from the spec: the `DONE` set of terminal run-state strings from
`civis.base` (not under `src/`).  The spec's state machine is
`PENDING → RUNNING → {SUCCEEDED, FAILED, CANCELLED}` with the last three
terminal, so a run-state string is done exactly when it is one of these. -/
def DONE : List String := ["succeeded", "failed", "cancelled"]

/-! ## `_create_docker_command` (futures.py lines 297-309)

Positional arguments are represented by their `str()` images, and keyword
arguments by pairs of the key and the `str()` image of the value.  Python's
`sorted(kwargs.items())` sorts the key/value tuples lexicographically, which
on the distinct keys of a dict is simply ascending key order. -/

/-- Lexicographic order on key/value pairs, as Python's `sorted` compares
tuples of strings. -/
def pairLe (p q : String × String) : Prop :=
  p.1 < q.1 ∨ (p.1 = q.1 ∧ p.2 ≤ q.2)

instance pairLe.decRel : DecidableRel pairLe := fun p q =>
  inferInstanceAs (Decidable (p.1 < q.1 ∨ (p.1 = q.1 ∧ p.2 ≤ q.2)))

instance pairLe.total : IsTotal (String × String) pairLe := by
  constructor
  intro p q
  rcases lt_trichotomy p.1 q.1 with h | h | h
  · exact Or.inl (Or.inl h)
  · rcases le_total p.2 q.2 with h2 | h2
    · exact Or.inl (Or.inr ⟨h, h2⟩)
    · exact Or.inr (Or.inr ⟨h.symm, h2⟩)
  · exact Or.inr (Or.inl h)

instance pairLe.trans : IsTrans (String × String) pairLe := by
  constructor
  intro p q r hpq hqr
  rcases hpq with h1 | ⟨h1, h1v⟩
  · rcases hqr with h2 | ⟨h2, _⟩
    · exact Or.inl (h1.trans h2)
    · exact Or.inl (h2 ▸ h1)
  · rcases hqr with h2 | ⟨h2, h2v⟩
    · exact Or.inl (h1 ▸ h2)
    · exact Or.inr ⟨h1.trans h2, h1v.trans h2v⟩

instance pairLe.antisymm : IsAntisymm (String × String) pairLe := by
  constructor
  intro p q hpq hqp
  rcases hpq with h1 | ⟨h1, h1v⟩
  · rcases hqp with h2 | ⟨h2, _⟩
    · exact absurd (h1.trans h2) (lt_irrefl _)
    · exact absurd (h2 ▸ h1) (lt_irrefl _)
  · rcases hqp with h2 | ⟨_, h2v⟩
    · exact absurd (h1 ▸ h2) (lt_irrefl _)
    · exact Prod.ext h1 (le_antisymm h1v h2v)

/-- Embedding of Python's `sorted(kwargs.items())`. -/
def kwSorted (kwargs : List (String × String)) : List (String × String) :=
  List.insertionSort pairLe kwargs

/-- Embedding of `_create_docker_command` (futures.py): the positional
arguments in order, then `--key value` fragments for the keyword arguments
in sorted order, joined by single spaces. -/
def _create_docker_command (args : List String)
    (kwargs : List (String × String)) : String :=
  String.intercalate " "
    (args ++ (kwSorted kwargs).map (fun kv => "--" ++ kv.1 ++ " " ++ kv.2))

/-! ## `ContainerFuture._set_api_exception` (futures.py lines 239-271)

The retrying failure path of the tracker.  The poller arguments are the pair
`(job_id, run_id)`; `client.jobs.post_runs(self.job_id)` is the remote
request that starts a new run of the same job, whose returned run id is
supplied by the environment (`newRun`). -/

/-- The per-tracker state read and written by `_set_api_exception`:
`poller_args` (job id and current run id), the remaining retry budget
`_max_n_retries`, the terminal exception slot (modelled from the spec:
`PollableResult._set_api_exception`, not under `src/`, records the failure
cause as the tracker's terminal outcome), and the log of job ids for which
`client.jobs.post_runs` was called. -/
structure CFState where
  jobId : Nat
  runId : Nat
  maxNRetries : Nat
  exception : Option Nat
  postRunsCalls : List Nat
deriving DecidableEq

/-- Embedding of `ContainerFuture._set_api_exception`: when retry budget
remains, start a new run of the same job (`post_runs(self.job_id)` returning
`newRunId`), rebind `poller_args[1]` to the new run id, and decrement the
budget; otherwise record the exception as terminal via the parent class. -/
def _set_api_exception (newRunId e : Nat) (s : CFState) : CFState :=
  if 0 < s.maxNRetries then
    { s with postRunsCalls := s.postRunsCalls ++ [s.jobId],
             runId := newRunId,
             maxNRetries := s.maxNRetries - 1 }
  else
    { s with exception := some e }

/-- The tracker state after `k` consecutive failures, where the remote
service answers the `k`-th `post_runs` request with run id `newRun k` and
the `k`-th failure carries exception `excs k`. -/
def applyFailures (newRun excs : Nat → Nat) (s : CFState) : Nat → CFState
  | 0 => s
  | k + 1 => _set_api_exception (newRun k) (excs k) (applyFailures newRun excs s k)

/-! ## `ContainerFuture.cancel` (futures.py lines 273-294) and
`_CivisExecutor.cancel_all` (futures.py lines 432-437) -/

/-- The tracker state inspected and mutated by `cancel`.  `result` is the
state string of the stored API response (`self._result`), `none` when no
result has been recorded.  `cancelled`/`done` below are modelled from the
spec: the state queries of `civis.base` (not under `src/`) derive the
tracker's state from the stored response, with terminal = result state in
`DONE` or an exception recorded. -/
structure Tracker where
  jobId : Nat
  runId : Nat
  result : Option String
  exception : Option Nat
  cleanedUp : Bool
  waitersNotified : Bool
  callbacksInvoked : Bool
deriving DecidableEq

/-- Modelled from the spec: `cancelled()` — the tracker's recorded terminal
state is CANCELLED. -/
def Tracker.cancelledQ (t : Tracker) : Bool :=
  decide (t.result = some "cancelled")

/-- Modelled from the spec: `done()` — the tracker has reached a terminal
state (a result whose state is in `DONE`, or a recorded exception). -/
def Tracker.doneQ (t : Tracker) : Bool :=
  (match t.result with
   | some s => decide (s ∈ DONE)
   | none => false) || t.exception.isSome

/-- The observable effect of one `cancel()` call: the tracker's new state,
the returned Boolean, and how many `post_cancel` requests were issued. -/
structure CancelOut where
  state : Tracker
  returned : Bool
  requests : Nat
deriving DecidableEq

/-- Embedding of `ContainerFuture.cancel`: if already cancelled, return
`True`; else if not done, issue one `post_cancel` request, store its
response (state string `respState`) as the finished result, notify waiters,
release resources (`cleanup`), invoke callbacks, and return `cancelled()`;
otherwise (done but not cancelled) return `False`. -/
def ContainerFuture.cancel (t : Tracker) (respState : String) : CancelOut :=
  if t.cancelledQ then
    ⟨t, true, 0⟩
  else if !t.doneQ then
    let t' : Tracker :=
      { t with result := some respState,
               waitersNotified := true,
               cleanedUp := true,
               callbacksInvoked := true }
    ⟨t', t'.cancelledQ, 1⟩
  else
    ⟨t, false, 0⟩

/-- Embedding of `_CivisExecutor.cancel_all`: call `cancel()` on every
registered future; returns the new tracker states and the total number of
`post_cancel` requests issued. -/
def cancel_all (ts : List Tracker) (respState : String) : List Tracker × Nat :=
  ts.foldr
    (fun t acc =>
      let c := ContainerFuture.cancel t respState
      (c.state :: acc.1, c.requests + acc.2))
    ([], 0)

/-! ## `_CivisBackend.apply_async` submission retry loop
(parallel.py lines 667-695) -/

/-- The outcome of one `executor.submit` attempt: success, a `CivisAPIError`
(the transient class the loop catches), or any other exception (uncaught). -/
inductive AttemptOutcome where
  | ok
  | civisErr (e : Nat)
  | otherErr (e : Nat)
deriving DecidableEq

/-- The observable outcome of the submission loop: success, or a raised
`JobSubmissionError` wrapping the last transient error, or a propagated
non-transient exception.  Each carries the number of attempts made and the
list of back-off sleeps (in seconds) performed, in order.
`loopFellThrough` marks the `for` loop ending with neither break nor raise
(proved unreachable). -/
inductive SubmitResult where
  | submitted (attempts : Nat) (sleeps : List Nat)
  | jobSubmissionError (e : Nat) (attempts : Nat) (sleeps : List Nat)
  | raisedOther (e : Nat) (attempts : Nat) (sleeps : List Nat)
  | loopFellThrough
deriving DecidableEq

/-- The number of submission attempts recorded in a `SubmitResult`. -/
def SubmitResult.attemptsOf : SubmitResult → Nat
  | SubmitResult.submitted a _ => a
  | SubmitResult.jobSubmissionError _ a _ => a
  | SubmitResult.raisedOther _ a _ => a
  | SubmitResult.loopFellThrough => 0

/-- The body of `for n_retries in range(1 + self.max_submit_retries)`.
`n` is the current value of `n_retries`, `fuel` the number of loop
iterations remaining; `f n` is the outcome of the submit call on iteration
`n`.  On a `CivisAPIError`: if `max_submit_retries - n_retries - 1 < 1`
(Python `int` arithmetic, hence `Int` here) raise `JobSubmissionError`, else
sleep `2 ** n_retries` seconds and continue. -/
def submitGo (maxSR : Nat) (f : Nat → AttemptOutcome) : Nat → Nat → SubmitResult
  | _, 0 => SubmitResult.loopFellThrough
  | n, fuel + 1 =>
    match f n with
    | AttemptOutcome.ok => SubmitResult.submitted (n + 1) []
    | AttemptOutcome.otherErr e => SubmitResult.raisedOther e (n + 1) []
    | AttemptOutcome.civisErr e =>
      if (maxSR : Int) - n - 1 < 1 then
        SubmitResult.jobSubmissionError e (n + 1) []
      else
        match submitGo maxSR f (n + 1) fuel with
        | SubmitResult.submitted a s =>
            SubmitResult.submitted a (2 ^ n :: s)
        | SubmitResult.jobSubmissionError e' a s =>
            SubmitResult.jobSubmissionError e' a (2 ^ n :: s)
        | SubmitResult.raisedOther e' a s =>
            SubmitResult.raisedOther e' a (2 ^ n :: s)
        | SubmitResult.loopFellThrough => SubmitResult.loopFellThrough

/-- Embedding of the submission-retry loop of `_CivisBackend.apply_async`
with `max_submit_retries = maxSR`. -/
def apply_async_submit (maxSR : Nat) (f : Nat → AttemptOutcome) : SubmitResult :=
  submitGo maxSR f 0 (maxSR + 1)

/-! ## `_robust_result_download` (parallel.py lines 412-436) -/

/-- The outcome of one `civis_to_file` download attempt: success (with the
deserialized value), one of the retried transport errors
(`requests.HTTPError`, `requests.ConnectionError`,
`requests.ConnectTimeout`), or any other exception (not retried). -/
inductive DLAttempt where
  | ok (v : Nat)
  | transient (e : Nat)
  | fatal (e : Nat)
deriving DecidableEq

deriving instance DecidableEq for Except

/-- The observable outcome of `_robust_result_download`: the returned value
or raised exception, the number of download attempts made, and the number of
fixed-`delay` sleeps performed. -/
structure DLOut where
  result : Except Nat Nat
  attempts : Nat
  sleeps : Nat
deriving DecidableEq

/-- The download loop of `_robust_result_download`.  `idx` counts the
attempts already failed (`n_failed`), `remaining` is `n_retries - n_failed`;
a transient error with no budget left re-raises, otherwise the loop sleeps
`delay` seconds and retries. -/
def robustGo (attempts : Nat → DLAttempt) : Nat → Nat → DLOut
  | idx, 0 =>
    match attempts idx with
    | DLAttempt.ok v => ⟨Except.ok v, 1, 0⟩
    | DLAttempt.fatal e => ⟨Except.error e, 1, 0⟩
    | DLAttempt.transient e => ⟨Except.error e, 1, 0⟩
  | idx, r + 1 =>
    match attempts idx with
    | DLAttempt.ok v => ⟨Except.ok v, 1, 0⟩
    | DLAttempt.fatal e => ⟨Except.error e, 1, 0⟩
    | DLAttempt.transient _ =>
      let rest := robustGo attempts (idx + 1) r
      ⟨rest.result, rest.attempts + 1, rest.sleeps + 1⟩

/-- Embedding of `_robust_result_download` with retry budget `nRetries`. -/
def _robust_result_download (nRetries : Nat) (attempts : Nat → DLAttempt) :
    DLOut :=
  robustGo attempts 0 nRetries

/-! ## `_CivisBackendResult._make_fetch_callback` (parallel.py lines 486-542) -/

/-- The terminal state of the `ContainerFuture` observed by the completion
callback: `succeeded()` is true only in the first case, `cancelled()` only
in the last, and `exception()` is non-`None` exactly for a failed run. -/
inductive Terminal where
  | succeeded
  | failed
  | cancelled
deriving DecidableEq

/-- Truth value of `fut.cancelled()` for a terminal future. -/
def Terminal.cancelledQ : Terminal → Bool
  | Terminal.cancelled => true
  | _ => false

/-- Truth value of `fut.exception() is not None` for a terminal future. -/
def Terminal.excQ : Terminal → Bool
  | Terminal.failed => true
  | _ => false

/-- What the downloaded-output slot `fut.remote_func_output` can hold: the
deserialized remote value, or the exception captured during fetching. -/
inductive RemoteOutput where
  | value (v : Nat)
  | failure (e : Nat)
deriving DecidableEq

/-- The outcome of the `try` block of `_fetch_result`: the run declared no
outputs, or the first output artifact was downloaded and deserialized, or
the listing/download raised. -/
inductive FetchTry where
  | noOutputs
  | downloaded (v : Nat)
  | raised (e : Nat)
deriving DecidableEq

/-- Whether the `try` block completed without raising. -/
def FetchTry.okQ : FetchTry → Bool
  | FetchTry.raised _ => false
  | _ => true

/-- The `try` block of `_fetch_result`: list the run outputs (`listing` is
`Except.error e` when `list_containers_runs_outputs` raises, `Except.ok
none` when the list is empty, `Except.ok (some fileId)` otherwise), then
download the first output with `_robust_result_download` (n_retries=5,
delay=1.0 at the call site). -/
def tryBlock (listing : Except Nat (Option Nat)) (nRetries : Nat)
    (attempts : Nat → DLAttempt) : FetchTry :=
  match listing with
  | Except.error e => FetchTry.raised e
  | Except.ok none => FetchTry.noOutputs
  | Except.ok (some _) =>
    match (_robust_result_download nRetries attempts).result with
    | Except.ok v => FetchTry.downloaded v
    | Except.error e => FetchTry.raised e

/-- The observable effect of `_fetch_result` on the future: the stored
`remote_func_output` slot, the `result_fetched` flag, and whether the joblib
continuation callback was invoked (its single argument is the stored
`remote_func_output`). -/
structure FetchEffect where
  remoteFuncOutput : Option RemoteOutput
  resultFetched : Bool
  invoked : Bool
deriving DecidableEq

/-- Embedding of the `_fetch_result` closure made by
`_CivisBackendResult._make_fetch_callback`: an exception in the `try` block
is stored in `remote_func_output` (not propagated, `result_fetched` stays
`False`, no continuation); otherwise `result_fetched` is set and the
continuation runs exactly when `not fut.cancelled() and not
fut.exception()`. -/
def _fetch_result (term : Terminal) (t : FetchTry) : FetchEffect :=
  match t with
  | FetchTry.raised e => ⟨some (RemoteOutput.failure e), false, false⟩
  | FetchTry.noOutputs => ⟨none, true, !term.cancelledQ && !term.excQ⟩
  | FetchTry.downloaded v =>
    ⟨some (RemoteOutput.value v), true, !term.cancelledQ && !term.excQ⟩

/-! ## `_CivisBackendResult.get` (parallel.py lines 544-581) -/

/-- The fields of the underlying `ContainerFuture` that `get` reads, after
the future has reached a terminal state and its completion callback has
run. -/
structure BRFut where
  remoteFuncOutput : Option RemoteOutput
  resultFetched : Bool
  excSet : Bool
deriving DecidableEq

/-- The `self.result` slot of a `_CivisBackendResult`. -/
structure BackendResult where
  result : Option RemoteOutput
deriving DecidableEq

/-- What a `get` call does: return `self.result`, re-raise the stored
result, or raise a fresh `TransportableException` from the API exception. -/
inductive GetOutcome where
  | returned (r : Option RemoteOutput)
  | raised (r : RemoteOutput)
  | raisedTransportable
deriving DecidableEq

/-- The observable effect of one `get` call: the new `self.result` slot, the
outcome, and whether the blocking wait-and-read branch executed. -/
structure GetOut where
  newSelf : BackendResult
  outcome : GetOutcome
  waited : Bool
deriving DecidableEq

/-- Embedding of `_CivisBackendResult.get`: if `self.result is None`, wait
for the future and read `remote_func_output` into `self.result`; then if the
future holds an exception or the result was never fetched, raise the stored
result when there is one (else a `TransportableException`); otherwise return
`self.result`. -/
def BackendResult.get (br : BackendResult) (fut : BRFut) : GetOut :=
  let waited := br.result.isNone
  let r := if br.result.isNone then fut.remoteFuncOutput else br.result
  let self' : BackendResult := ⟨r⟩
  if fut.excSet || !fut.resultFetched then
    match r with
    | some x => ⟨self', GetOutcome.raised x, waited⟩
    | none => ⟨self', GetOutcome.raisedTransportable, waited⟩
  else
    ⟨self', GetOutcome.returned r, waited⟩

/-! ## `_CivisBackend.effective_n_jobs` (parallel.py lines 613-620) -/

/-- Embedding of `_ALL_JOBS` (parallel.py line 27). -/
def _ALL_JOBS : Int := 50

/-- Embedding of `_CivisBackend.effective_n_jobs`: `-1` maps to the platform
default `_ALL_JOBS`; any remaining non-positive value raises `ValueError`
(modelled as `Except.error`). -/
def effective_n_jobs (nJobs : Int) : Except String Int :=
  let n := if nJobs = -1 then _ALL_JOBS else nJobs
  if n ≤ 0 then
    Except.error "Please request a positive number of jobs, or use -1"
  else
    Except.ok n

/-! ## `CivisFuture._check_message` (futures.py lines 162-174) -/

/-- The poller arguments of a tracker: either `(job_id,)` or
`(job_id, run_id)`. -/
inductive PollerArgs where
  | job (jobId : Nat)
  | jobRun (jobId runId : Nat)
deriving DecidableEq

/-- The job id carried by the poller arguments (`poller_args[0]`). -/
def PollerArgs.jobIdOf : PollerArgs → Nat
  | PollerArgs.job j => j
  | PollerArgs.jobRun j _ => j

/-- An inbound notification message.  A field is `none` when the
corresponding key (`message['object']['id']`, `message['run']['id']`,
`message['run']['state']`) is absent, in which case the Python code raises
`KeyError` at the access, caught by `_check_message`. -/
structure Message where
  objectId : Option Nat
  runId : Option Nat
  runState : Option String
deriving DecidableEq

/-- Access of a message key: a missing key raises `KeyError`, which
`_check_message` catches and converts to `False`; with Python's
short-circuiting `and` this is value-equal to treating the missing key's
whole conjunction as `false`. -/
def keyOrFalse {α : Type} (o : Option α) (f : α → Bool) : Bool :=
  match o with
  | none => false
  | some a => f a

/-- Embedding of `CivisFuture._check_message`.  Key accesses follow Python's
evaluation order; a `KeyError` (access of a `none` field) yields `false` via
the surrounding `try`/`except`. -/
def _check_message (pa : PollerArgs) (msg : Message) : Bool :=
  match pa with
  | PollerArgs.job jobId =>
    keyOrFalse msg.objectId (fun oid =>
      oid == jobId && keyOrFalse msg.runState (fun st => decide (st ∈ DONE)))
  | PollerArgs.jobRun jobId runId =>
    keyOrFalse msg.objectId (fun oid =>
      oid == jobId && keyOrFalse msg.runId (fun rid =>
        rid == runId &&
          keyOrFalse msg.runState (fun st => decide (st ∈ DONE))))

/-! ## Helper lemmas -/

@[simp]
theorem keyOrFalse_none {α : Type} (f : α → Bool) :
    keyOrFalse none f = false := rfl

@[simp]
theorem keyOrFalse_some {α : Type} (a : α) (f : α → Bool) :
    keyOrFalse (some a) f = f a := rfl

theorem Tracker.cancelledQ_doneQ (t : Tracker) (h : t.cancelledQ = true) :
    t.doneQ = true := by
  have hr : t.result = some "cancelled" := by
    simpa [Tracker.cancelledQ] using h
  simp [Tracker.doneQ, hr, DONE]

theorem cancel_requests_eq (t : Tracker) (respState : String) :
    (ContainerFuture.cancel t respState).requests =
      if t.doneQ then 0 else 1 := by
  by_cases hc : t.cancelledQ = true
  · rw [ContainerFuture.cancel, if_pos hc]
    simp [Tracker.cancelledQ_doneQ t hc]
  · have hc' : t.cancelledQ = false := by simpa using hc
    cases hd : t.doneQ <;> simp [ContainerFuture.cancel, hc', hd]

theorem cancel_done_frame (t : Tracker) (respState : String)
    (hd : t.doneQ = true) :
    ContainerFuture.cancel t respState = ⟨t, t.cancelledQ, 0⟩ := by
  cases hc : t.cancelledQ with
  | true => simp [ContainerFuture.cancel, hc]
  | false => simp [ContainerFuture.cancel, hc, hd]

theorem submitGo_attempts_le (k : Nat) (f : Nat → AttemptOutcome) :
    ∀ fuel n, n + 1 ≤ max 1 k →
      (submitGo k f n fuel).attemptsOf ≤ max 1 k := by
  intro fuel
  induction fuel with
  | zero =>
    intro n _
    simp [submitGo, SubmitResult.attemptsOf]
  | succ fuel ih =>
    intro n hn
    cases hf : f n with
    | ok => simpa [submitGo, hf, SubmitResult.attemptsOf] using hn
    | otherErr e => simpa [submitGo, hf, SubmitResult.attemptsOf] using hn
    | civisErr e =>
      by_cases hc : (k : Int) - n - 1 < 1
      · simp only [submitGo, hf, if_pos hc]
        simpa [SubmitResult.attemptsOf] using hn
      · have hn' : n + 1 + 1 ≤ max 1 k := by omega
        have hrec := ih (n + 1) hn'
        simp only [submitGo, hf, if_neg hc]
        cases hr : submitGo k f (n + 1) fuel <;>
          simp_all [SubmitResult.attemptsOf]

theorem submitGo_all_transient (k : Nat) (f : Nat → AttemptOutcome)
    (es : Nat → Nat) :
    ∀ fuel n, fuel + n = k + 1 → n + 1 ≤ max 1 k →
      (∀ i, n ≤ i → i < max 1 k → f i = AttemptOutcome.civisErr (es i)) →
      submitGo k f n fuel =
        SubmitResult.jobSubmissionError (es (max 1 k - 1)) (max 1 k)
          ((List.range' n (max 1 k - 1 - n)).map (fun i => 2 ^ i)) := by
  intro fuel
  induction fuel with
  | zero =>
    intro n hfn hn _
    exact absurd hn (by omega)
  | succ fuel ih =>
    intro n hfn hn hall
    have hnlt : n < max 1 k := by omega
    have hf := hall n le_rfl hnlt
    by_cases hc : (k : Int) - n - 1 < 1
    · have hr0 : max 1 k - 1 - n = 0 := by omega
      have hlast : n = max 1 k - 1 := by omega
      have harith : max 1 k - 1 + 1 = max 1 k := by omega
      simp only [submitGo, hf, if_pos hc]
      rw [hr0, hlast, harith]
      simp
    · have hrec := ih (n + 1) (by omega) (by omega)
        (fun i h1 h2 => hall i (by omega) h2)
      simp only [submitGo, hf, if_neg hc, hrec]
      have hlen : max 1 k - 1 - n = (max 1 k - 1 - (n + 1)) + 1 := by omega
      rw [hlen, List.range'_succ]
      simp

theorem submitGo_submitted (k : Nat) (f : Nat → AttemptOutcome) :
    ∀ fuel n a s, submitGo k f n fuel = SubmitResult.submitted a s →
      n < a ∧ f (a - 1) = AttemptOutcome.ok ∧
      (∀ i, n ≤ i → i < a - 1 → ∃ e, f i = AttemptOutcome.civisErr e) ∧
      s = (List.range' n (a - 1 - n)).map (fun i => 2 ^ i) := by
  intro fuel
  induction fuel with
  | zero =>
    intro n a s h
    exact absurd h (by simp [submitGo])
  | succ fuel ih =>
    intro n a s h
    cases hf : f n with
    | ok =>
      simp only [submitGo, hf] at h
      injection h with ha hs
      subst ha
      subst hs
      refine ⟨by omega, by simpa using hf, ?_, ?_⟩
      · intro i h1 h2
        exfalso
        omega
      · have h0 : n + 1 - 1 - n = 0 := by omega
        rw [h0]
        rfl
    | otherErr e =>
      simp only [submitGo, hf] at h
      exact SubmitResult.noConfusion h
    | civisErr e =>
      by_cases hc : (k : Int) - n - 1 < 1
      · simp only [submitGo, hf, if_pos hc] at h
        exact SubmitResult.noConfusion h
      · simp only [submitGo, hf, if_neg hc] at h
        cases hr : submitGo k f (n + 1) fuel with
        | submitted a' s' =>
          simp only [hr] at h
          injection h with ha hs
          obtain ⟨h1, h2, h3, h4⟩ := ih (n + 1) a s' (ha ▸ hr)
          refine ⟨by omega, h2, ?_, ?_⟩
          · intro i hi1 hi2
            rcases Nat.eq_or_lt_of_le hi1 with rfl | hlt
            · exact ⟨e, hf⟩
            · exact h3 i hlt hi2
          · rw [← hs, h4]
            have hlen : a - 1 - n = (a - 1 - (n + 1)) + 1 := by omega
            rw [hlen, List.range'_succ]
            simp
        | jobSubmissionError e' a' s' =>
          simp only [hr] at h
          exact SubmitResult.noConfusion h
        | raisedOther e' a' s' =>
          simp only [hr] at h
          exact SubmitResult.noConfusion h
        | loopFellThrough =>
          simp only [hr] at h
          exact SubmitResult.noConfusion h

theorem submitGo_success (k : Nat) (f : Nat → AttemptOutcome) :
    ∀ fuel n m, fuel + n = k + 1 → n ≤ m → m < max 1 k →
      (∀ i, n ≤ i → i < m → ∃ e, f i = AttemptOutcome.civisErr e) →
      f m = AttemptOutcome.ok →
      submitGo k f n fuel =
        SubmitResult.submitted (m + 1)
          ((List.range' n (m - n)).map (fun i => 2 ^ i)) := by
  intro fuel
  induction fuel with
  | zero =>
    intro n m hfn hnm hm _ _
    exfalso
    omega
  | succ fuel ih =>
    intro n m hfn hnm hm hciv hok
    rcases Nat.eq_or_lt_of_le hnm with rfl | hlt
    · simp only [submitGo, hok, Nat.sub_self]
      rfl
    · obtain ⟨e, hfe⟩ := hciv n le_rfl hlt
      have hc : ¬ (k : Int) - n - 1 < 1 := by omega
      have hrec := ih (n + 1) m (by omega) hlt hm
        (fun i h1 h2 => hciv i (by omega) h2) hok
      simp only [submitGo, hfe, if_neg hc, hrec]
      have hlen : m - n = (m - (n + 1)) + 1 := by omega
      rw [hlen, List.range'_succ]
      simp

theorem robustGo_attempts_le (attempts : Nat → DLAttempt) :
    ∀ r idx, (robustGo attempts idx r).attempts ≤ r + 1 := by
  intro r
  induction r with
  | zero =>
    intro idx
    cases h : attempts idx <;> simp [robustGo, h]
  | succ r ih =>
    intro idx
    cases h : attempts idx with
    | ok v => simp [robustGo, h]
    | fatal e => simp [robustGo, h]
    | transient e =>
      simp only [robustGo, h]
      exact Nat.succ_le_succ (ih (idx + 1))

theorem robustGo_all_transient (attempts : Nat → DLAttempt) (es : Nat → Nat) :
    ∀ r idx,
      (∀ i, idx ≤ i → i ≤ idx + r → attempts i = DLAttempt.transient (es i)) →
      robustGo attempts idx r = ⟨Except.error (es (idx + r)), r + 1, r⟩ := by
  intro r
  induction r with
  | zero =>
    intro idx h
    have h0 := h idx le_rfl (by omega)
    simp [robustGo, h0]
  | succ r ih =>
    intro idx h
    have h0 := h idx le_rfl (by omega)
    have hrec := ih (idx + 1) (fun i h1 h2 => h i (by omega) (by omega))
    have harg : idx + 1 + r = idx + (r + 1) := by omega
    rw [harg] at hrec
    simp [robustGo, h0, hrec]

/-! ## Claim theorems -/

/-- C1: a `ContainerFuture` with retry budget `n` absorbs exactly `n`
failures: each absorbed failure starts a new run of the same job
(`post_runs(job_id)`), rebinds the poller run id to the new run's id,
decrements the budget, and records no terminal exception; the `(n+1)`-th
failure is recorded as the terminal exception, and with budget `0` the very
first failure is terminal. -/
theorem set_api_exception_retry_spec (jobId runId₀ n : Nat)
    (newRun excs : Nat → Nat) :
    (∀ k, k ≤ n →
      applyFailures newRun excs ⟨jobId, runId₀, n, none, []⟩ k =
        ⟨jobId, (if k = 0 then runId₀ else newRun (k - 1)), n - k, none,
          List.replicate k jobId⟩) ∧
    applyFailures newRun excs ⟨jobId, runId₀, n, none, []⟩ (n + 1) =
      ⟨jobId, (if n = 0 then runId₀ else newRun (n - 1)), 0, some (excs n),
        List.replicate n jobId⟩ := by
  have hmain : ∀ k, k ≤ n →
      applyFailures newRun excs ⟨jobId, runId₀, n, none, []⟩ k =
        ⟨jobId, (if k = 0 then runId₀ else newRun (k - 1)), n - k, none,
          List.replicate k jobId⟩ := by
    intro k
    induction k with
    | zero => intro _; simp [applyFailures]
    | succ k ih =>
      intro hk
      have hk' : k ≤ n := Nat.le_of_succ_le hk
      have hpos : 0 < n - k := by omega
      rw [applyFailures, ih hk', _set_api_exception]
      simp only [if_pos hpos]
      have hrep : List.replicate k jobId ++ [jobId] =
          List.replicate (k + 1) jobId := (List.replicate_succ' k jobId).symm
      simp [hrep]
      omega
  refine ⟨hmain, ?_⟩
  rw [applyFailures, hmain n le_rfl, _set_api_exception]
  simp

/-- C1 witness: budget 2 absorbs two failures (two new runs of job 10, run
id rebound to the second new run, budget exhausted, no exception), and the
third failure is recorded as the terminal exception. -/
theorem set_api_exception_retry_spec_witness :
    (2 : Nat) ≤ 2 ∧
    applyFailures (fun k => 200 + k) (fun k => 300 + k)
        ⟨10, 100, 2, none, []⟩ 2 =
      ⟨10, 201, 0, none, [10, 10]⟩ ∧
    applyFailures (fun k => 200 + k) (fun k => 300 + k)
        ⟨10, 100, 2, none, []⟩ 3 =
      ⟨10, 201, 0, some 302, [10, 10]⟩ := by
  refine ⟨le_rfl, ?_, ?_⟩
  · have h := (set_api_exception_retry_spec 10 100 2 (fun k => 200 + k)
      (fun k => 300 + k)).1 2 le_rfl
    rw [h]
    decide
  · have h := (set_api_exception_retry_spec 10 100 2 (fun k => 200 + k)
      (fun k => 300 + k)).2
    rw [h]
    decide

/-- C3: on a non-terminal tracker, `cancel()` issues exactly one
`post_cancel` request, records the cancel response (state CANCELLED) as the
terminal result, releases polling/notification resources, notifies waiters,
and returns exactly whether the tracker ended up cancelled; on a tracker
already terminal in a non-cancelled state it returns `False`. -/
theorem cancel_nonterminal_spec (t : Tracker) (respState : String) :
    (t.doneQ = false → respState = "cancelled" →
      (ContainerFuture.cancel t respState).requests = 1 ∧
      (ContainerFuture.cancel t respState).state.result = some "cancelled" ∧
      (ContainerFuture.cancel t respState).state.cancelledQ = true ∧
      (ContainerFuture.cancel t respState).state.cleanedUp = true ∧
      (ContainerFuture.cancel t respState).state.waitersNotified = true ∧
      (ContainerFuture.cancel t respState).returned = true) ∧
    (t.doneQ = false →
      (ContainerFuture.cancel t respState).returned =
        (ContainerFuture.cancel t respState).state.cancelledQ) ∧
    (t.doneQ = true → t.cancelledQ = false →
      (ContainerFuture.cancel t respState).returned = false) := by
  refine ⟨?_, ?_, ?_⟩
  · intro hnd hresp
    have hnc : t.cancelledQ = false := by
      cases hc : t.cancelledQ
      · rfl
      · rw [Tracker.cancelledQ_doneQ t hc] at hnd
        exact absurd hnd (by simp)
    have hr : ¬ t.result = some "cancelled" := by
      simpa [Tracker.cancelledQ] using hnc
    subst hresp
    simp [ContainerFuture.cancel, hr, hnd, Tracker.cancelledQ]
  · intro hnd
    have hnc : t.cancelledQ = false := by
      cases hc : t.cancelledQ
      · rfl
      · rw [Tracker.cancelledQ_doneQ t hc] at hnd
        exact absurd hnd (by simp)
    have hr : ¬ t.result = some "cancelled" := by
      simpa [Tracker.cancelledQ] using hnc
    simp [ContainerFuture.cancel, Tracker.cancelledQ, hr, hnd]
  · intro hd hnc
    have hr : ¬ t.result = some "cancelled" := by
      simpa [Tracker.cancelledQ] using hnc
    simp [ContainerFuture.cancel, Tracker.cancelledQ, hr, hd]

/-- C3 witness: a fresh (non-terminal) tracker is cancelled: one request,
CANCELLED recorded, resources released, waiters notified, `True` returned. -/
theorem cancel_nonterminal_spec_witness :
    (Tracker.mk 1 2 none none false false false).doneQ = false ∧
    (ContainerFuture.cancel ⟨1, 2, none, none, false, false, false⟩
      "cancelled").requests = 1 ∧
    (ContainerFuture.cancel ⟨1, 2, none, none, false, false, false⟩
      "cancelled").returned = true := by
  have h := (cancel_nonterminal_spec ⟨1, 2, none, none, false, false, false⟩
    "cancelled").1 (by decide) rfl
  exact ⟨by decide, h.1, h.2.2.2.2.2⟩

/-- C4: `cancel()` on an already-terminal tracker leaves the whole tracker
state (in particular the stored result and exception) unchanged, issues no
`post_cancel` request, and returns `True` iff the terminal state is
CANCELLED; consequently `cancel_all` issues exactly one request per
non-terminal tracker and maps every already-terminal tracker to itself. -/
theorem cancel_terminal_frame_spec :
    (∀ (t : Tracker) (respState : String), t.doneQ = true →
      ContainerFuture.cancel t respState = ⟨t, t.cancelledQ, 0⟩) ∧
    (∀ (ts : List Tracker) (respState : String),
      (cancel_all ts respState).2 = ts.countP (fun t => !t.doneQ) ∧
      (cancel_all ts respState).1 =
        ts.map (fun t => (ContainerFuture.cancel t respState).state) ∧
      (∀ t ∈ ts, t.doneQ = true →
        (ContainerFuture.cancel t respState).state = t)) := by
  refine ⟨cancel_done_frame, ?_⟩
  intro ts respState
  have hcons : ∀ (t : Tracker) (ts : List Tracker),
      cancel_all (t :: ts) respState =
        ((ContainerFuture.cancel t respState).state ::
            (cancel_all ts respState).1,
          (ContainerFuture.cancel t respState).requests +
            (cancel_all ts respState).2) := fun t ts => rfl
  refine ⟨?_, ?_, ?_⟩
  · induction ts with
    | nil => rfl
    | cons t ts ih =>
      rw [hcons, List.countP_cons]
      simp only [cancel_requests_eq]
      cases hd : t.doneQ <;> (simp [hd, ih]; try omega)
  · induction ts with
    | nil => rfl
    | cons t ts ih =>
      rw [hcons, List.map_cons]
      simp [ih]
  · intro t _ hd
    rw [cancel_done_frame t respState hd]

/-- C4 witness: a tracker terminal in state SUCCEEDED is untouched by
`cancel()`, no request is issued, and `False` is returned; `cancel_all` over
one terminal and one running tracker issues exactly one request. -/
theorem cancel_terminal_frame_spec_witness :
    (Tracker.mk 1 2 (some "succeeded") none true true true).doneQ = true ∧
    ContainerFuture.cancel ⟨1, 2, some "succeeded", none, true, true, true⟩
        "cancelled" =
      ⟨⟨1, 2, some "succeeded", none, true, true, true⟩, false, 0⟩ ∧
    (cancel_all [⟨1, 2, some "succeeded", none, true, true, true⟩,
        ⟨3, 4, none, none, false, false, false⟩] "cancelled").2 = 1 := by
  refine ⟨by decide, ?_, ?_⟩
  · have h := cancel_terminal_frame_spec.1
      ⟨1, 2, some "succeeded", none, true, true, true⟩ "cancelled" (by decide)
    rw [h]
    decide
  · have h := (cancel_terminal_frame_spec.2
      [⟨1, 2, some "succeeded", none, true, true, true⟩,
       ⟨3, 4, none, none, false, false, false⟩] "cancelled").1
    rw [h]
    decide

/-- C2 counterexample: with `max_submit_retries = 0` the loop still makes
one submission attempt, so "up to `k` submission attempts" fails at `k = 0`
(the code makes `max(1, k)` attempts, not `k`). -/
theorem apply_async_submit_zero_counterexample :
    apply_async_submit 0 (fun _ => AttemptOutcome.ok) =
      SubmitResult.submitted 1 [] ∧
    ¬ (apply_async_submit 0
        (fun _ => AttemptOutcome.ok)).attemptsOf ≤ 0 := by
  constructor
  · rfl
  · intro h
    simp [apply_async_submit, submitGo, SubmitResult.attemptsOf] at h

/-- C2 (amended): `apply_async` makes up to `max(1, k)` submission attempts
(at most `k` when `k ≥ 1`, one when `k = 0`); after the `i`-th failed
attempt that is retried it sleeps `2 ^ i` seconds; only `CivisAPIError` is
retried (any other exception propagates at once, and every retried attempt
failed with a `CivisAPIError`); when all attempts fail with transient errors
it raises a `JobSubmissionError` (a distinct outcome from a job-execution
failure); and when the first `m` attempts fail transiently and attempt
`m + 1` succeeds the call succeeds after total back-off
`2^0 + ... + 2^(m-1)` — in particular `k = 3` with failures on attempts 1
and 2 sleeps `2^0 + 2^1` seconds and succeeds on attempt 3. -/
theorem apply_async_submit_spec (k : Nat) (f : Nat → AttemptOutcome) :
    (apply_async_submit k f).attemptsOf ≤ max 1 k ∧
    (∀ es : Nat → Nat,
      (∀ i, i < max 1 k → f i = AttemptOutcome.civisErr (es i)) →
      apply_async_submit k f =
        SubmitResult.jobSubmissionError (es (max 1 k - 1)) (max 1 k)
          ((List.range (max 1 k - 1)).map (fun i => 2 ^ i))) ∧
    (∀ a s, apply_async_submit k f = SubmitResult.submitted a s →
      f (a - 1) = AttemptOutcome.ok ∧
      (∀ i, i < a - 1 → ∃ e, f i = AttemptOutcome.civisErr e) ∧
      s = (List.range (a - 1)).map (fun i => 2 ^ i)) ∧
    (∀ e, f 0 = AttemptOutcome.otherErr e →
      apply_async_submit k f = SubmitResult.raisedOther e 1 []) ∧
    (∀ m, m < max 1 k →
      (∀ i, i < m → ∃ e, f i = AttemptOutcome.civisErr e) →
      f m = AttemptOutcome.ok →
      apply_async_submit k f =
        SubmitResult.submitted (m + 1)
          ((List.range m).map (fun i => 2 ^ i))) := by
  have hmax : (0 : Nat) + 1 ≤ max 1 k := by omega
  refine ⟨submitGo_attempts_le k f (k + 1) 0 hmax, ?_, ?_, ?_, ?_⟩
  · intro es hall
    have h := submitGo_all_transient k f es (k + 1) 0 (by omega) hmax
      (fun i _ h2 => hall i h2)
    rw [apply_async_submit, h, List.range_eq_range']
    simp
  · intro a s h
    obtain ⟨h1, h2, h3, h4⟩ := submitGo_submitted k f (k + 1) 0 a s h
    refine ⟨h2, fun i hi => h3 i (Nat.zero_le i) hi, ?_⟩
    rw [h4, List.range_eq_range']
    simp
  · intro e he
    rw [apply_async_submit]
    simp [submitGo, he]
  · intro m hm hciv hok
    have h := submitGo_success k f (k + 1) 0 m (by omega) (Nat.zero_le m) hm
      (fun i _ h2 => hciv i h2) hok
    rw [apply_async_submit, h, List.range_eq_range']
    simp

/-- C2 witness: the spec's scenario — `max_submit_retries = 3`, transient
`CivisAPIError`s on attempts 1 and 2, success on attempt 3: three attempts,
sleeps `2^0 = 1` and `2^1 = 2` seconds, final call succeeds. -/
theorem apply_async_submit_spec_witness :
    (2 : Nat) < max 1 3 ∧
    apply_async_submit 3
        (fun i => if i = 0 then AttemptOutcome.civisErr 5
          else if i = 1 then AttemptOutcome.civisErr 6
          else AttemptOutcome.ok) =
      SubmitResult.submitted 3 [1, 2] := by
  refine ⟨by decide, ?_⟩
  have h := (apply_async_submit_spec 3
    (fun i => if i = 0 then AttemptOutcome.civisErr 5
      else if i = 1 then AttemptOutcome.civisErr 6
      else AttemptOutcome.ok)).2.2.2.2 2 (by decide) ?_ rfl
  · simpa using h
  · intro i hi
    interval_cases i
    · exact ⟨5, rfl⟩
    · exact ⟨6, rfl⟩

/-- C5: once a `get()` call has returned a value, every further `get()`
call returns that same cached value, does not execute the wait-and-read
branch again (no re-download, no re-deserialization — `get` never downloads;
the artifact was fetched once by the completion callback), and leaves the
`self.result` slot unchanged. -/
theorem backend_result_get_cached_spec (br br₁ : BackendResult) (fut : BRFut)
    (v : RemoteOutput) (w : Bool)
    (h : br.get fut = ⟨br₁, GetOutcome.returned (some v), w⟩) :
    br₁.get fut = ⟨br₁, GetOutcome.returned (some v), false⟩ := by
  simp only [BackendResult.get] at h
  by_cases hc : (fut.excSet || !fut.resultFetched) = true
  · rw [if_pos hc] at h
    split at h <;> simp_all
  · have hcf : (fut.excSet || !fut.resultFetched) = false := by
      simpa using hc
    rw [hcf] at h
    simp only [Bool.false_eq_true, if_false] at h
    injection h with ha hb hw
    injection hb with hb'
    subst ha
    rw [hb']
    simp [BackendResult.get, hcf]

/-- C5 witness: a successful future whose callback stored value 5; the
first `get` returns it, and the second returns the cached value with no
wait-and-read. -/
theorem backend_result_get_cached_spec_witness :
    (BackendResult.mk none).get ⟨some (RemoteOutput.value 5), true, false⟩ =
      ⟨⟨some (RemoteOutput.value 5)⟩,
        GetOutcome.returned (some (RemoteOutput.value 5)), true⟩ ∧
    (BackendResult.mk (some (RemoteOutput.value 5))).get
        ⟨some (RemoteOutput.value 5), true, false⟩ =
      ⟨⟨some (RemoteOutput.value 5)⟩,
        GetOutcome.returned (some (RemoteOutput.value 5)), false⟩ :=
  ⟨by decide,
   backend_result_get_cached_spec ⟨none⟩ ⟨some (RemoteOutput.value 5)⟩
     ⟨some (RemoteOutput.value 5), true, false⟩ (RemoteOutput.value 5) true
     (by decide)⟩

/-- C6 counterexample: a run that reached SUCCEEDED whose output-artifact
download keeps raising transient transport errors — the completion hook does
not invoke the continuation although the run succeeded, refuting the claim's
"exactly when the run reached SUCCEEDED". -/
theorem fetch_callback_succeeded_not_invoked_counterexample :
    (_fetch_result Terminal.succeeded
        (tryBlock (Except.ok (some 1)) 5
          (fun _ => DLAttempt.transient 7))).invoked = false ∧
    (_fetch_result Terminal.succeeded
        (tryBlock (Except.ok (some 1)) 5
          (fun _ => DLAttempt.transient 7))).resultFetched = false := by
  decide

/-- C6 (amended): the completion hook invokes the continuation, with the
fetched `remote_func_output` as its single argument, exactly when the run
reached SUCCEEDED and the output listing/download step raised no exception;
when the download yielded a value that value is the argument; for a
cancelled or failed run the continuation is never invoked. -/
theorem fetch_callback_invoke_spec (term : Terminal) (t : FetchTry) :
    ((_fetch_result term t).invoked = true ↔
      (term = Terminal.succeeded ∧ t.okQ = true)) ∧
    (term = Terminal.cancelled ∨ term = Terminal.failed →
      (_fetch_result term t).invoked = false) ∧
    (∀ v, t = FetchTry.downloaded v →
      (_fetch_result term t).remoteFuncOutput =
        some (RemoteOutput.value v)) := by
  cases term <;> cases t <;>
    simp [_fetch_result, FetchTry.okQ, Terminal.cancelledQ, Terminal.excQ]

/-- C6 witness: a succeeded run with a downloaded value invokes the
continuation, and the stored argument is that value. -/
theorem fetch_callback_invoke_spec_witness :
    (Terminal.succeeded = Terminal.succeeded ∧
      (FetchTry.downloaded 3).okQ = true) ∧
    (_fetch_result Terminal.succeeded (FetchTry.downloaded 3)).invoked = true ∧
    (_fetch_result Terminal.succeeded
      (FetchTry.downloaded 3)).remoteFuncOutput =
        some (RemoteOutput.value 3) :=
  ⟨⟨rfl, rfl⟩,
   (fetch_callback_invoke_spec Terminal.succeeded
      (FetchTry.downloaded 3)).1.mpr ⟨rfl, rfl⟩,
   (fetch_callback_invoke_spec Terminal.succeeded
      (FetchTry.downloaded 3)).2.2 3 rfl⟩

/-- C7: an output-artifact download makes at most `n_retries + 1` attempts;
when every attempt raises a transient transport error the last exception is
raised after exactly `n_retries + 1` attempts and `n_retries` fixed-delay
sleeps; and a download failure is stored by the completion hook in the
unit's result slot (`remote_func_output`), with no continuation invoked and
nothing propagating out of the completion-handling thread. -/
theorem robust_result_download_spec (nRetries : Nat)
    (attempts : Nat → DLAttempt) :
    (_robust_result_download nRetries attempts).attempts ≤ nRetries + 1 ∧
    (∀ es : Nat → Nat,
      (∀ i, i ≤ nRetries → attempts i = DLAttempt.transient (es i)) →
      _robust_result_download nRetries attempts =
        ⟨Except.error (es nRetries), nRetries + 1, nRetries⟩) ∧
    (∀ fid term e,
      (_robust_result_download nRetries attempts).result = Except.error e →
      _fetch_result term (tryBlock (Except.ok (some fid)) nRetries attempts) =
        ⟨some (RemoteOutput.failure e), false, false⟩) := by
  refine ⟨robustGo_attempts_le attempts nRetries 0, ?_, ?_⟩
  · intro es hall
    have h := robustGo_all_transient attempts es nRetries 0
      (fun i h1 h2 => hall i (by omega))
    simpa [_robust_result_download] using h
  · intro fid term e h
    simp [tryBlock, h, _fetch_result]

/-- C7 witness: with `n_retries = 1` and persistently failing transport,
exactly 2 attempts and 1 sleep occur and the last exception is raised. -/
theorem robust_result_download_spec_witness :
    (∀ i : Nat, i ≤ 1 →
      (fun _ : Nat => DLAttempt.transient 7) i = DLAttempt.transient 7) ∧
    _robust_result_download 1 (fun _ => DLAttempt.transient 7) =
      ⟨Except.error 7, 2, 1⟩ :=
  ⟨fun _ _ => rfl,
   (robust_result_download_spec 1 (fun _ => DLAttempt.transient 7)).2.1
     (fun _ => 7) (fun _ _ => rfl)⟩

/-- C8: `effective_n_jobs` returns the fixed default 50 for the sentinel
`-1`, returns positive requests unchanged, and raises `ValueError` for every
other non-positive value (0 or below -1). -/
theorem effective_n_jobs_spec :
    effective_n_jobs (-1) = Except.ok 50 ∧
    (∀ n : Int, 0 < n → effective_n_jobs n = Except.ok n) ∧
    (∀ n : Int, n ≠ -1 → n ≤ 0 → ∃ msg, effective_n_jobs n = Except.error msg) := by
  refine ⟨rfl, ?_, ?_⟩
  · intro n hn
    have hne : n ≠ -1 := by omega
    simp only [effective_n_jobs, _ALL_JOBS, if_neg hne]
    rw [if_neg (by omega)]
  · intro n hne hle
    refine ⟨"Please request a positive number of jobs, or use -1", ?_⟩
    simp only [effective_n_jobs, _ALL_JOBS, if_neg hne]
    rw [if_pos hle]

/-- C8 witness: concrete instances of each branch. -/
theorem effective_n_jobs_spec_witness :
    (0 : Int) < 7 ∧ effective_n_jobs 7 = Except.ok 7 := by
  exact ⟨by decide, effective_n_jobs_spec.2.1 7 (by decide)⟩

/-- C9: `_create_docker_command` is invariant under permutation of the
keyword arguments (dict insertion order), the keyword fragments appear in
ascending key order, no fragment is lost or invented, and the output is the
space-joined concatenation of the positional arguments with the sorted
`--key value` fragments. -/
theorem create_docker_command_spec (args : List String)
    (kw₁ kw₂ : List (String × String)) (hperm : kw₁.Perm kw₂) :
    _create_docker_command args kw₁ = _create_docker_command args kw₂ ∧
    List.Sorted (fun p q : String × String => p.1 ≤ q.1) (kwSorted kw₁) ∧
    (kwSorted kw₁).Perm kw₁ ∧
    _create_docker_command args kw₁ =
      String.intercalate " "
        (args ++ (kwSorted kw₁).map (fun kv => "--" ++ kv.1 ++ " " ++ kv.2)) := by
  have hsorted : ∀ l : List (String × String),
      List.Sorted pairLe (kwSorted l) := fun l =>
    List.sorted_insertionSort pairLe l
  have hp : ∀ l : List (String × String), (kwSorted l).Perm l := fun l =>
    List.perm_insertionSort pairLe l
  have heq : kwSorted kw₁ = kwSorted kw₂ := by
    refine List.eq_of_perm_of_sorted ?_ (hsorted kw₁) (hsorted kw₂)
    exact (hp kw₁).trans (hperm.trans (hp kw₂).symm)
  refine ⟨?_, ?_, hp kw₁, rfl⟩
  · unfold _create_docker_command
    rw [heq]
  · refine (hsorted kw₁).imp ?_
    intro p q hpq
    rcases hpq with h | ⟨h, _⟩
    · exact le_of_lt h
    · exact le_of_eq h

/-- C9 witness: the docstring example, with the keyword dictionary given in
two different insertion orders. -/
theorem create_docker_command_spec_witness :
    ([("wobble", "8"), ("wibble", "7")] : List (String × String)).Perm
      [("wibble", "7"), ("wobble", "8")] ∧
    _create_docker_command ["./myprogram", "5", "6"]
        [("wobble", "8"), ("wibble", "7")] =
      _create_docker_command ["./myprogram", "5", "6"]
        [("wibble", "7"), ("wobble", "8")] := by
  exact ⟨by decide,
    (create_docker_command_spec ["./myprogram", "5", "6"] _ _ (by decide)).1⟩

/-- C10: `_check_message` never raises (it is a total Boolean function); a
message lacking any key the branch inspects yields `false`; and it returns
`true` only when the object id equals the tracker's job id, the run state is
in `DONE`, and — when the poller args carry a run id — the run ids match. -/
theorem check_message_spec (pa : PollerArgs) (msg : Message) :
    (msg.objectId = none → _check_message pa msg = false) ∧
    (msg.runState = none → _check_message pa msg = false) ∧
    (∀ j r, pa = PollerArgs.jobRun j r → msg.runId = none →
      _check_message pa msg = false) ∧
    (_check_message pa msg = true →
      msg.objectId = some pa.jobIdOf ∧
      (∃ st, msg.runState = some st ∧ st ∈ DONE) ∧
      (∀ j r, pa = PollerArgs.jobRun j r → msg.runId = some r)) := by
  obtain ⟨oid, rid, rst⟩ := msg
  refine ⟨?_, ?_, ?_, ?_⟩
  · intro h
    cases pa <;> simp_all [_check_message]
  · intro h
    cases pa <;> cases oid <;> cases rid <;> simp_all [_check_message]
  · rintro j r rfl h
    cases oid <;> simp_all [_check_message]
  · intro h
    cases pa with
    | job j =>
      cases oid <;> cases rst <;>
        simp_all [_check_message, PollerArgs.jobIdOf]
    | jobRun j r =>
      cases oid <;> cases rid <;> cases rst <;>
        simp_all [_check_message, PollerArgs.jobIdOf]

/-- C10 witness: a well-formed matching message is accepted, and the
acceptance conclusions hold at that concrete message. -/
theorem check_message_spec_witness :
    _check_message (PollerArgs.jobRun 3 4)
        ⟨some 3, some 4, some "succeeded"⟩ = true ∧
    (Message.mk (some 3) (some 4) (some "succeeded")).objectId =
      some (PollerArgs.jobRun 3 4).jobIdOf :=
  ⟨by decide,
   ((check_message_spec (PollerArgs.jobRun 3 4)
      ⟨some 3, some 4, some "succeeded"⟩).2.2.2 (by decide)).1⟩
